import Mathlib

set_option maxRecDepth 4000

/-
Shallow embedding of the DebugAgent symbol model.

Sources embedded:
  - src/debugger_api.py : the SymbolType enumeration actually declared there
    (BASIC, STRUCT, ARRAY, POINTER only) is captured as SymbolTypeDeclared.
  - src/lldb_wrapper.py : LLDBSymbol (classification, string detection, value
    extraction, member/index access) and LLDBTarget.get_global.
  - src/main.py : the boundary tool layer (handle table, get_global,
    get_member, get_members, get_index, get_array_size, get_value_number,
    get_value_string).

The lldb SBValue/SBType objects that the wrapper manipulates are external to
the repository; they are modelled as a small value tree (SBValue below) that
provides exactly the accessors the wrapper calls: GetType().GetCanonicalType()
with its predicates, GetChildAtIndex, GetNumChildren, GetChildMemberWithName,
GetValue (textual value), GetValueAsSigned/Unsigned, and GetData().ReadRawData
(the backing bytes).  Failed lldb lookups (absent global, absent member,
out-of-range child) return an invalid SBValue rather than raising, which is
modelled by invalidValue; backend data reads are modelled as succeeding (the
RuntimeError branch of _cast_string models a backend IO failure no claim is
about).  Python exceptions are modelled by the PyErr error type; the
lldb_wrapper and main.py code both use the six symbol kinds BASIC, STRUCT,
ARRAY, POINTER, STRING, ENUM, which SymbolType below captures, while
SymbolTypeDeclared captures the four members debugger_api.py declares.
-/

/- Basic type categories, mirroring the lldb eBasicType constants used by
value_number in lldb_wrapper.py (plus short/unsignedShort/other to stand for
categories outside the sets int_types and float_types of the source). -/
inductive BasicType where
  | invalid
  | char
  | signedChar
  | unsignedChar
  | short
  | unsignedShort
  | int
  | unsignedInt
  | long
  | unsignedLong
  | longLong
  | unsignedLongLong
  | float
  | double
  | other
deriving DecidableEq

/- Native C-like types as lldb SBType exposes them to the wrapper. -/
inductive CType where
  | typedefOf (name : String) (t : CType)
  | pointer (t : CType)
  | array (elem : CType) (size : Nat)
  | structT (name : String)
  | enumT (name : String)
  | basic (b : BasicType)
  | invalid
deriving DecidableEq

/- GetCanonicalType: strip typedef layers. -/
def canonical : CType → CType
  | .typedefOf _ t => canonical t
  | t => t

/- SBType.IsPointerType -/
def isPointerType : CType → Bool
  | .pointer _ => true
  | _ => false

/- SBType.IsArrayType -/
def isArrayType : CType → Bool
  | .array _ _ => true
  | _ => false

/- SBType.IsAggregateType: in lldb arrays and record types are aggregates. -/
def isAggregateType : CType → Bool
  | .array _ _ => true
  | .structT _ => true
  | _ => false

/- GetTypeClass () == eTypeClassEnumeration -/
def isEnumClass : CType → Bool
  | .enumT _ => true
  | _ => false

/- SBType.GetBasicType: the basic category, eBasicTypeInvalid otherwise. -/
def getBasicType : CType → BasicType
  | .basic b => b
  | _ => .invalid

def basicName : BasicType → String
  | .invalid => ""
  | .char => "char"
  | .signedChar => "signed char"
  | .unsignedChar => "unsigned char"
  | .short => "short"
  | .unsignedShort => "unsigned short"
  | .int => "int"
  | .unsignedInt => "unsigned int"
  | .long => "long"
  | .unsignedLong => "unsigned long"
  | .longLong => "long long"
  | .unsignedLongLong => "unsigned long long"
  | .float => "float"
  | .double => "double"
  | .other => "other"

/- SBType.GetDisplayTypeName -/
def displayTypeName : CType → String
  | .typedefOf n _ => n
  | .pointer t => displayTypeName t ++ (" *")
  | .array e n => displayTypeName e ++ ("[") ++ (toString n) ++ ("]")
  | .structT n => n
  | .enumT n => n
  | .basic b => basicName b
  | .invalid => ""

/- An lldb SBValue: name, type, textual value (GetValue, None when lldb has
no value text), GetValueAsUnsigned, GetValueAsSigned, the raw backing bytes
(GetData), and the child values. -/
inductive SBValue where
  | mk (nameOpt : Option String) (ty : CType) (valText : Option String)
       (uVal : Nat) (sVal : Int) (bytes : List Nat) (children : List SBValue)

def SBValue.nameOpt : SBValue → Option String
  | .mk n _ _ _ _ _ _ => n

def SBValue.ty : SBValue → CType
  | .mk _ t _ _ _ _ _ => t

def SBValue.valText : SBValue → Option String
  | .mk _ _ s _ _ _ _ => s

def SBValue.uVal : SBValue → Nat
  | .mk _ _ _ u _ _ _ => u

def SBValue.sVal : SBValue → Int
  | .mk _ _ _ _ s _ _ => s

def SBValue.bytes : SBValue → List Nat
  | .mk _ _ _ _ _ bs _ => bs

def SBValue.children : SBValue → List SBValue
  | .mk _ _ _ _ _ _ cs => cs

/- The invalid SBValue lldb returns for failed lookups: no name, invalid
type, no value. -/
def invalidValue : SBValue := .mk none .invalid none 0 0 [] []

/- SBValue.GetNumChildren -/
def SBValue.numChildren (v : SBValue) : Nat := v.children.length

/- SBValue.GetChildAtIndex for a nonnegative index; out of range gives the
invalid value. -/
def SBValue.getChildAtIndex (v : SBValue) (n : Nat) : SBValue :=
  v.children.getD n invalidValue

/- SBValue.GetChildAtIndex on a Python int that may be negative: the child
lookup is performed by the backend, which yields an invalid value rather than
raising (no bounds check exists in the repository code for negative n). -/
def SBValue.getChildAtIndexInt (v : SBValue) (n : Int) : SBValue :=
  match n with
  | .ofNat m => v.getChildAtIndex m
  | .negSucc _ => invalidValue

/- SBValue.GetChildMemberWithName: child with the exact name, invalid value
if absent. -/
def SBValue.getChildMemberWithName (v : SBValue) (nm : String) : SBValue :=
  (v.children.find? (fun c => c.nameOpt == some nm)).getD invalidValue

/- Python exceptions raised by the embedded code. -/
inductive ToolErrKind where
  | invalidIdentifier
  | symbolNotFound
  | unknownHandle
  | handleMismatch
  | wrongSymbolType
deriving DecidableEq

inductive PyErr where
  | assertionError
  | runtimeError
  | valueError
  | typeError
  | notImplementedError
  | keyError
  | validationError
  | toolError (k : ToolErrKind)
deriving DecidableEq

/- The six symbol kinds the code (lldb_wrapper.py and main.py) works with. -/
inductive SymbolType where
  | BASIC
  | STRUCT
  | ARRAY
  | POINTER
  | STRING
  | ENUM
deriving DecidableEq

/- The members that debugger_api.py actually declares on its SymbolType
enumeration (STRING and ENUM are absent from the declaration). -/
inductive SymbolTypeDeclared where
  | BASIC
  | STRUCT
  | ARRAY
  | POINTER
deriving DecidableEq

/- Which of the six kinds used by the code are declared members of
debugger_api.SymbolType; referencing an undeclared member raises
AttributeError in Python. -/
def declaredMember : SymbolType → Option SymbolTypeDeclared
  | .BASIC => some .BASIC
  | .STRUCT => some .STRUCT
  | .ARRAY => some .ARRAY
  | .POINTER => some .POINTER
  | .STRING => none
  | .ENUM => none

/- module-level helper _canonical_typename of lldb_wrapper.py -/
def SBValue.canonicalTypename (v : SBValue) : String :=
  displayTypeName (canonical v.ty)

/- The byte scan loop of LLDBSymbol._cast_string: printable ASCII bytes
(33..127) are collected, a NUL byte ends the scan successfully with the
collected prefix, any other byte disqualifies the value. -/
def scanChars : List Nat → Option (List Char)
  | [] => some []
  | b :: bs =>
    if 33 ≤ b ∧ b ≤ 127 then (scanChars bs).map (fun cs => Char.ofNat b :: cs)
    else if b = 0 then some []
    else none

/- LLDBSymbol._cast_string: candidate arrays are those whose canonical type is
an array and whose first child has canonical display type name "char"; the raw
bytes are read up to GetNumChildren and scanned. -/
def LLDBSymbol.castString (v : SBValue) : Option String :=
  if isArrayType (canonical v.ty) = true ∧
      (v.getChildAtIndex 0).canonicalTypename = ("char") then
    (scanChars (v.bytes.take v.numChildren)).map (fun cs => String.mk cs)
  else none

/- LLDBSymbol.type: pointer, then array (refined to STRING when _cast_string
returns a string), then aggregate, then enumeration, else basic. -/
def LLDBSymbol.type (v : SBValue) : SymbolType :=
  let ct := canonical v.ty
  if isPointerType ct then .POINTER
  else if isArrayType ct then
    match LLDBSymbol.castString v with
    | some _ => .STRING
    | none => .ARRAY
  else if isAggregateType ct then .STRUCT
  else if isEnumClass ct then .ENUM
  else .BASIC

/- LLDBSymbol.has_members: aggregate and not array. -/
def LLDBSymbol.hasMembers (v : SBValue) : Bool :=
  isAggregateType (canonical v.ty) && !(isArrayType (canonical v.ty))

/- LLDBSymbol._check_members: RuntimeError when the receiver is not a
structure or union. -/
def LLDBSymbol.checkMembers (v : SBValue) : Except PyErr Unit :=
  if LLDBSymbol.hasMembers v then .ok () else .error .runtimeError

/- LLDBSymbol.num_members -/
def LLDBSymbol.numMembers (v : SBValue) : Except PyErr Nat :=
  match LLDBSymbol.checkMembers v with
  | .ok _ => .ok v.numChildren
  | .error e => .error e

/- LLDBSymbol.members -/
def LLDBSymbol.members (v : SBValue) : Except PyErr (List SBValue) :=
  match LLDBSymbol.checkMembers v with
  | .ok _ => .ok v.children
  | .error e => .error e

/- LLDBSymbol.member: after _check_members, wraps GetChildMemberWithName
unconditionally (no existence check in the source). -/
def LLDBSymbol.member (v : SBValue) (nm : String) : Except PyErr SBValue :=
  match LLDBSymbol.checkMembers v with
  | .ok _ => .ok (v.getChildMemberWithName nm)
  | .error e => .error e

/- LLDBSymbol.num_indices: asserts the symbol is an ARRAY. -/
def LLDBSymbol.numIndices (v : SBValue) : Except PyErr Nat :=
  if LLDBSymbol.type v = .ARRAY then .ok v.numChildren
  else .error .assertionError

/- LLDBSymbol.index: asserts ARRAY and n < num_indices (no lower bound
check), then wraps GetChildAtIndex n. -/
def LLDBSymbol.index (v : SBValue) (n : Int) : Except PyErr SBValue :=
  if LLDBSymbol.type v = .ARRAY then
    if n < (v.numChildren : Int) then .ok (v.getChildAtIndexInt n)
    else .error .assertionError
  else .error .assertionError

/- Python int(text, 0) and float(text), for the textual values lldb
produces: optional sign, then either a base prefix (0x, 0o, 0b) with digits
or decimal digits; float texts are decimal with an optional fractional
part.  A missing text (GetValue returned None) raises TypeError, an
unparsable text raises ValueError. -/
def digitVal (base : Nat) (c : Char) : Option Nat :=
  if ('0') ≤ c ∧ c ≤ ('9') then
    if c.toNat - 48 < base then some (c.toNat - 48) else none
  else if ('a') ≤ c ∧ c ≤ ('f') then
    if c.toNat - 87 < base then some (c.toNat - 87) else none
  else if ('A') ≤ c ∧ c ≤ ('F') then
    if c.toNat - 55 < base then some (c.toNat - 55) else none
  else none

def digitsToNatAux (base : Nat) (acc : Nat) : List Char → Option Nat
  | [] => some acc
  | c :: cs =>
    match digitVal base c with
    | some d => digitsToNatAux base (acc * base + d) cs
    | none => none

def digitsToNat (base : Nat) : List Char → Option Nat
  | [] => none
  | cs => digitsToNatAux base 0 cs

def pyIntMag : List Char → Option Nat
  | '0' :: 'x' :: rest => digitsToNat 16 rest
  | '0' :: 'X' :: rest => digitsToNat 16 rest
  | '0' :: 'o' :: rest => digitsToNat 8 rest
  | '0' :: 'O' :: rest => digitsToNat 8 rest
  | '0' :: 'b' :: rest => digitsToNat 2 rest
  | '0' :: 'B' :: rest => digitsToNat 2 rest
  | cs => digitsToNat 10 cs

def pyIntSigned : List Char → Option Int
  | '-' :: rest => (pyIntMag rest).map (fun m => -(m : Int))
  | '+' :: rest => (pyIntMag rest).map (fun m => (m : Int))
  | cs => (pyIntMag cs).map (fun m => (m : Int))

def pyIntBase0 : Option String → Except PyErr Int
  | none => .error .typeError
  | some s =>
    match pyIntSigned s.toList with
    | some i => .ok i
    | none => .error .valueError

def pyFloatMag (cs : List Char) : Option Rat :=
  match cs.findIdx? (fun c => c == ('.')) with
  | none => (digitsToNat 10 cs).map (fun m => (m : Rat))
  | some i =>
    match cs.take i, cs.drop (i + 1) with
    | [], [] => none
    | [], f => (digitsToNat 10 f).map (fun m => (m : Rat) / ((10 : Rat) ^ f.length))
    | ip, [] => (digitsToNat 10 ip).map (fun m => (m : Rat))
    | ip, f =>
      match digitsToNat 10 ip, digitsToNat 10 f with
      | some a, some b => some ((a : Rat) + (b : Rat) / ((10 : Rat) ^ f.length))
      | _, _ => none

def pyFloatSigned : List Char → Option Rat
  | '-' :: rest => (pyFloatMag rest).map (fun q => -q)
  | '+' :: rest => pyFloatMag rest
  | cs => pyFloatMag cs

def pyFloat : Option String → Except PyErr Rat
  | none => .error .typeError
  | some s =>
    match pyFloatSigned s.toList with
    | some q => .ok q
    | none => .error .valueError

/- Result of value_number: a Python int or float. -/
inductive PyVal where
  | int (i : Int)
  | float (q : Rat)
deriving DecidableEq

/- The literal set int_types of value_number (note: the short categories are
absent from it in the source). -/
def intTypesList : List BasicType :=
  [.signedChar, .unsignedChar, .char, .int, .long, .unsignedInt,
   .unsignedLong, .longLong, .unsignedLongLong]

def floatTypesList : List BasicType := [.float, .double]

/- LLDBSymbol.value_number: enum via GetValueAsUnsigned; pointer via
int(GetValue, 0); otherwise asserts BASIC and dispatches on the canonical
basic type exactly as the source chain does: eBasicTypeInvalid raises
ValueError, signed/plain char via GetValueAsSigned, unsigned char via
GetValueAsUnsigned, the remaining members of int_types via int(GetValue, 0),
float types via float(GetValue), anything else raises NotImplementedError. -/
def LLDBSymbol.valueNumber (v : SBValue) : Except PyErr PyVal :=
  if LLDBSymbol.type v = SymbolType.ENUM then .ok (.int (v.uVal : Int))
  else if LLDBSymbol.type v = SymbolType.POINTER then
    (pyIntBase0 v.valText).map PyVal.int
  else if LLDBSymbol.type v = SymbolType.BASIC then
    let bt := getBasicType (canonical v.ty)
    if bt = .invalid then .error .valueError
    else if bt = .signedChar ∨ bt = .char then .ok (.int v.sVal)
    else if bt = .unsignedChar then .ok (.int (v.uVal : Int))
    else if bt ∈ intTypesList then (pyIntBase0 v.valText).map PyVal.int
    else if bt ∈ floatTypesList then (pyFloat v.valText).map PyVal.float
    else .error .notImplementedError
  else .error .assertionError

/- LLDBSymbol.value_string: STRING yields the cast string, ENUM yields the
textual value (an absent text is modelled as the TypeError the caller's use
of the result raises); anything else fails the final assertion. -/
def LLDBSymbol.valueString (v : SBValue) : Except PyErr String :=
  if LLDBSymbol.type v = SymbolType.STRING then
    match LLDBSymbol.castString v with
    | some s => .ok s
    | none => .error .assertionError
  else if LLDBSymbol.type v = SymbolType.ENUM then
    match v.valText with
    | some s => .ok s
    | none => .error .typeError
  else .error .assertionError

/- LLDBTarget.get_global: FindFirstGlobalVariable wrapped unconditionally;
an absent global yields the invalid value (lldb does not raise, and the
SymbolNotFound class main.py refers to is not defined in debugger_api.py). -/
def LLDBTarget.getGlobal (globalsList : List SBValue) (name : String) : SBValue :=
  (globalsList.find? (fun v => v.nameOpt == some name)).getD invalidValue

/-
The boundary layer of main.py.  The handle table is the Application.symbols
dict keyed by uuid4 identifiers; it is modelled as an association list with a
counter supplying fresh identifiers (uuid4 collisions are out of scope).  The
SymbolInfo snapshot carries id, name and the type literal.  ToolException
raises are modelled as PyErr.toolError with the kind of the corresponding
message; a direct dict access on a missing key is PyErr.keyError; a pydantic
validation failure while building SymbolInfo (name=None, from an invalid
backend value) is PyErr.validationError.
-/

structure SymbolInfo where
  id : Nat
  name : String
  symType : SymbolType
deriving DecidableEq

structure AppState where
  symbols : List (Nat × SBValue)
  nextId : Nat

def lookupSym (st : AppState) (id : Nat) : Option SBValue :=
  (st.symbols.find? (fun p => p.1 == id)).map (fun p => p.2)

/- Handle identifiers already in the table are strictly below the counter, so
a minted identifier is always fresh (the uuid4 freshness assumption). -/
def WFState (st : AppState) : Prop := ∀ p ∈ st.symbols, p.1 < st.nextId

/- Application.add_symbol: insert under a fresh identifier, then build the
SymbolInfo snapshot.  The insert happens before the snapshot is built, so a
symbol with no name (an invalid backend value) is inserted and only then
fails pydantic validation. -/
def addSymbol (st : AppState) (v : SBValue) : AppState × Except PyErr SymbolInfo :=
  let id := st.nextId
  let st2 : AppState := ⟨(id, v) :: st.symbols, st.nextId + 1⟩
  match v.nameOpt with
  | some n => (st2, .ok ⟨id, n, LLDBSymbol.type v⟩)
  | none => (st2, .error .validationError)

/- The loop of get_members: add_symbol per member, keeping earlier inserts
when a later one fails. -/
def addSymbolList (st : AppState) : List SBValue → AppState × Except PyErr (List SymbolInfo)
  | [] => (st, .ok [])
  | v :: vs =>
    let r1 := addSymbol st v
    match r1.2 with
    | .error e => (r1.1, .error e)
    | .ok info =>
      let r2 := addSymbolList r1.1 vs
      match r2.2 with
      | .error e => (r2.1, .error e)
      | .ok infos => (r2.1, .ok (info :: infos))

/- ERR_REROUTE_STR of main.py: the dict literal has entries for ARRAY,
BASIC, ENUM, STRING and STRUCT but none for POINTER, so formatting an error
message for a POINTER receiver raises KeyError. -/
def errReroute : SymbolType → Option String
  | .ARRAY => some ("Use get_index or get_array_size instead since it of type array")
  | .BASIC => some ("Use get_value_number instead since it of type basic")
  | .ENUM => some ("Use get_value_string instead since it of type enum")
  | .STRING => some ("Use get_value_string instead since it of type string")
  | .STRUCT => some ("Use get_member instead since it of type string")
  | .POINTER => none

/- Python str.find: index of the first occurrence, -1 when absent. -/
def pyFind (s : String) (c : Char) : Int :=
  match s.toList.findIdx? (fun a => a == c) with
  | some i => (i : Int)
  | none => -1

/- The special-character check of main.get_global:
any(name.find(c) > 0 for c in the three characters bracket-open,
bracket-close, dot) -- note the strict > 0. -/
def splChars (name : String) : Bool :=
  decide (0 < pyFind name ('[')) || decide (0 < pyFind name (']')) ||
    decide (0 < pyFind name ('.'))

/- main.get_global: reject names failing the special-character check, then
fetch from the target and register.  The except SymbolNotFound branch of the
source is unreachable: LLDBTarget.get_global never raises, and the class is
not defined in debugger_api.py. -/
def appGetGlobal (st : AppState) (globalsList : List SBValue) (name : String) :
    AppState × Except PyErr SymbolInfo :=
  if splChars name then (st, .error (.toolError .invalidIdentifier))
  else addSymbol st (LLDBTarget.getGlobal globalsList name)

/- main.get_member: resolve via Application.get_symbol (dict.get), check the
snapshot name, check STRUCT, then member + add_symbol. -/
def appGetMember (st : AppState) (info : SymbolInfo) (nm : String) :
    AppState × Except PyErr SymbolInfo :=
  match lookupSym st info.id with
  | none => (st, .error (.toolError .unknownHandle))
  | some var =>
    if var.nameOpt ≠ some info.name then (st, .error (.toolError .handleMismatch))
    else if LLDBSymbol.type var ≠ SymbolType.STRUCT then
      match errReroute (LLDBSymbol.type var) with
      | some _ => (st, .error (.toolError .wrongSymbolType))
      | none => (st, .error .keyError)
    else
      match LLDBSymbol.member var nm with
      | .ok memb => addSymbol st memb
      | .error e => (st, .error e)

/- main.get_members: direct dict access (KeyError when absent), no name
check, STRUCT check, then one add_symbol per member. -/
def appGetMembers (st : AppState) (info : SymbolInfo) :
    AppState × Except PyErr (List SymbolInfo) :=
  match lookupSym st info.id with
  | none => (st, .error .keyError)
  | some var =>
    if LLDBSymbol.type var ≠ SymbolType.STRUCT then
      match errReroute (LLDBSymbol.type var) with
      | some _ => (st, .error (.toolError .wrongSymbolType))
      | none => (st, .error .keyError)
    else
      match LLDBSymbol.members var with
      | .ok ms => addSymbolList st ms
      | .error e => (st, .error e)

/- main.get_index: direct dict access, no name check, ARRAY check, then
index + add_symbol (range failures surface as the wrapper's assertion). -/
def appGetIndex (st : AppState) (info : SymbolInfo) (n : Int) :
    AppState × Except PyErr SymbolInfo :=
  match lookupSym st info.id with
  | none => (st, .error .keyError)
  | some var =>
    if LLDBSymbol.type var ≠ SymbolType.ARRAY then
      match errReroute (LLDBSymbol.type var) with
      | some _ => (st, .error (.toolError .wrongSymbolType))
      | none => (st, .error .keyError)
    else
      match LLDBSymbol.index var n with
      | .ok elem => addSymbol st elem
      | .error e => (st, .error e)

/- main.get_array_size: direct dict access, no name check, ARRAY check,
then num_indices. -/
def appGetArraySize (st : AppState) (info : SymbolInfo) : Except PyErr Nat :=
  match lookupSym st info.id with
  | none => .error .keyError
  | some var =>
    if LLDBSymbol.type var ≠ SymbolType.ARRAY then
      match errReroute (LLDBSymbol.type var) with
      | some _ => .error (.toolError .wrongSymbolType)
      | none => .error .keyError
    else
      match LLDBSymbol.numIndices var with
      | .ok k => .ok k
      | .error e => .error e

/- main.get_value_number: direct dict access, no name check, BASIC or
POINTER or ENUM check (its error message does not use ERR_REROUTE_STR). -/
def appGetValueNumber (st : AppState) (info : SymbolInfo) : Except PyErr PyVal :=
  match lookupSym st info.id with
  | none => .error .keyError
  | some var =>
    if LLDBSymbol.type var = SymbolType.BASIC ∨ LLDBSymbol.type var = SymbolType.POINTER ∨
        LLDBSymbol.type var = SymbolType.ENUM then
      LLDBSymbol.valueNumber var
    else .error (.toolError .wrongSymbolType)

/- main.get_value_string: direct dict access, no name check, STRING or ENUM
check; an empty value becomes None. -/
def appGetValueString (st : AppState) (info : SymbolInfo) : Except PyErr (Option String) :=
  match lookupSym st info.id with
  | none => .error .keyError
  | some var =>
    if LLDBSymbol.type var = SymbolType.STRING ∨ LLDBSymbol.type var = SymbolType.ENUM then
      match LLDBSymbol.valueString var with
      | .ok out => .ok (if out.length = 0 then none else some out)
      | .error e => .error e
    else
      match errReroute (LLDBSymbol.type var) with
      | some _ => .error (.toolError .wrongSymbolType)
      | none => .error .keyError

/-
Concrete values used by witnesses and counterexamples.
-/

def childInt (nm : String) (txt : String) (u : Nat) (s : Int) : SBValue :=
  .mk (some nm) (.basic .int) (some txt) u s [] []

def charChild (b : Nat) : SBValue :=
  .mk (some ("c")) (.basic .char) none b (b : Int) [b] []

def charArrayVal (bs : List Nat) : SBValue :=
  .mk (some ("buf")) (.array (.basic .char) bs.length) none 0 0 bs (bs.map charChild)

/- bytes of "hi", then NUL, then a garbage byte -/
def hiGood : SBValue := charArrayVal [104, 105, 0, 7]

/- bytes of "hi", then 200 before any NUL -/
def hiBad : SBValue := charArrayVal [104, 105, 200, 0]

/- bytes of "AB" with no NUL terminator at all -/
def abNoNul : SBValue := charArrayVal [65, 66]

def enumExample : SBValue := .mk (some ("color")) (.enumT ("Color")) (some ("RED")) 2 2 [] []

def ptrExample : SBValue := .mk (some ("p")) (.pointer (.basic .int)) (some ("0x10")) 16 16 [] []

def intExample : SBValue := childInt ("count") ("10") 10 10

def arr3 : SBValue :=
  .mk (some ("items")) (.array (.basic .int) 3) none 0 0 []
    [childInt ("i0") ("1") 1 1, childInt ("i1") ("2") 2 2, childInt ("i2") ("3") 3 3]

def structA : SBValue := .mk (some ("cfg")) (.structT ("Cfg")) none 0 0 [] [childInt ("a") ("1") 1 1]

def struct2 : SBValue :=
  .mk (some ("s")) (.structT ("S")) none 0 0 [] [childInt ("a") ("1") 1 1, childInt ("b") ("2") 2 2]

def structEmpty : SBValue := .mk (some ("s")) (.structT ("E")) none 0 0 [] []

def st0 : AppState := ⟨[], 0⟩

def stA : AppState := ⟨[(0, structEmpty)], 1⟩

def stB : AppState := ⟨[(0, struct2)], 1⟩

def demoGlobals : List SBValue := [childInt ("x") ("1") 1 1]

/-
Helper lemmas about the string scan and classification.
-/

theorem scanChars_printable (bs : List Nat) (h : ∀ b ∈ bs, 33 ≤ b ∧ b ≤ 127) :
    scanChars bs = some (bs.map (fun b => Char.ofNat b)) := by
  induction bs with
  | nil => rfl
  | cons b bs ih =>
    have hb := h b (List.mem_cons_self b bs)
    have ih2 := ih (fun x hx => h x (List.mem_cons_of_mem b hx))
    simp only [scanChars, if_pos hb, ih2, Option.map_some', List.map_cons]

theorem scanChars_nul (pre rest : List Nat) (h : ∀ b ∈ pre, 33 ≤ b ∧ b ≤ 127) :
    scanChars (pre ++ 0 :: rest) = some (pre.map (fun b => Char.ofNat b)) := by
  induction pre with
  | nil => simp [scanChars]
  | cons b bs ih =>
    have hb := h b (List.mem_cons_self b bs)
    have ih2 := ih (fun x hx => h x (List.mem_cons_of_mem b hx))
    simp only [List.cons_append, scanChars, if_pos hb, List.append_eq, ih2,
      Option.map_some', List.map_cons]

theorem scanChars_bad (pre rest : List Nat) (bad : Nat)
    (h : ∀ b ∈ pre, 33 ≤ b ∧ b ≤ 127)
    (hbad : ¬(33 ≤ bad ∧ bad ≤ 127)) (hnz : bad ≠ 0) :
    scanChars (pre ++ bad :: rest) = none := by
  induction pre with
  | nil => simp only [List.nil_append, scanChars, if_neg hbad, if_neg hnz]
  | cons b bs ih =>
    have hb := h b (List.mem_cons_self b bs)
    have ih2 := ih (fun x hx => h x (List.mem_cons_of_mem b hx))
    simp only [List.cons_append, scanChars, if_pos hb, List.append_eq, ih2,
      Option.map_none']

theorem castString_eq_scan (v : SBValue)
    (hArr : isArrayType (canonical v.ty) = true)
    (hChar : (v.getChildAtIndex 0).canonicalTypename = ("char")) :
    LLDBSymbol.castString v =
      (scanChars (v.bytes.take v.numChildren)).map (fun cs => String.mk cs) := by
  simp only [LLDBSymbol.castString, if_pos (And.intro hArr hChar)]

theorem isPointerType_eq_false_of_array (ct : CType) (h : isArrayType ct = true) :
    isPointerType ct = false := by
  cases ct <;> simp_all [isArrayType, isPointerType]

theorem type_string_of_cast_some (v : SBValue) (s : String)
    (hArr : isArrayType (canonical v.ty) = true)
    (h : LLDBSymbol.castString v = some s) :
    LLDBSymbol.type v = SymbolType.STRING := by
  have hp := isPointerType_eq_false_of_array _ hArr
  simp [LLDBSymbol.type, hp, hArr, h]

theorem type_array_of_cast_none (v : SBValue)
    (hArr : isArrayType (canonical v.ty) = true)
    (h : LLDBSymbol.castString v = none) :
    LLDBSymbol.type v = SymbolType.ARRAY := by
  have hp := isPointerType_eq_false_of_array _ hArr
  simp [LLDBSymbol.type, hp, hArr, h]

/-- C1: LLDBSymbol.type follows the pointer, array-refined-to-string,
aggregate, enumeration, basic precedence over the six kinds the code uses,
but debugger_api.py declares only BASIC, STRUCT, ARRAY and POINTER on the
SymbolType enumeration: on a symbol whose canonical type is an enumeration
the classification designates ENUM, and on a char array that passes string
detection it designates STRING, neither of which is a declared member, so
the source raises AttributeError at the return statement instead of
returning a taxonomy member. -/
theorem c1_classification_missing_members :
    LLDBSymbol.type enumExample = SymbolType.ENUM
    ∧ declaredMember SymbolType.ENUM = none
    ∧ LLDBSymbol.type hiGood = SymbolType.STRING
    ∧ declaredMember SymbolType.STRING = none := by
  exact ⟨rfl, rfl, rfl, rfl⟩

/-- C2: string detection on a char array scans the bytes read up to the
declared length left to right; with all bytes before a NUL printable
(33..127) the scan succeeds with the prefix before the NUL and the symbol
classifies as STRING, while a non-printable non-NUL byte before any NUL
makes the scan fail and the symbol stays ARRAY. -/
theorem c2_string_detection (v : SBValue) (pre rest : List Nat) (bad : Nat)
    (hArr : isArrayType (canonical v.ty) = true)
    (hChar : (v.getChildAtIndex 0).canonicalTypename = ("char"))
    (hpre : ∀ b ∈ pre, 33 ≤ b ∧ b ≤ 127) :
    (v.bytes.take v.numChildren = pre ++ 0 :: rest →
        LLDBSymbol.castString v = some (String.mk (pre.map (fun b => Char.ofNat b)))
        ∧ LLDBSymbol.type v = SymbolType.STRING)
    ∧ (v.bytes.take v.numChildren = pre ++ bad :: rest →
        ¬(33 ≤ bad ∧ bad ≤ 127) → bad ≠ 0 →
        LLDBSymbol.castString v = none ∧ LLDBSymbol.type v = SymbolType.ARRAY) := by
  constructor
  · intro hdata
    have hcast : LLDBSymbol.castString v =
        some (String.mk (pre.map (fun b => Char.ofNat b))) := by
      rw [castString_eq_scan v hArr hChar, hdata, scanChars_nul pre rest hpre]
      rfl
    exact ⟨hcast, type_string_of_cast_some v _ hArr hcast⟩
  · intro hdata hbad hnz
    have hcast : LLDBSymbol.castString v = none := by
      rw [castString_eq_scan v hArr hChar, hdata, scanChars_bad pre rest bad hpre hbad hnz]
      rfl
    exact ⟨hcast, type_array_of_cast_none v hArr hcast⟩

/-- C2 witness: the array holding the bytes of "hi", a NUL, then a garbage
byte classifies as STRING with value "hi"; with the byte 200 before any NUL
it classifies as ARRAY. -/
theorem c2_string_detection_witness :
    LLDBSymbol.castString hiGood = some ("hi")
    ∧ LLDBSymbol.type hiGood = SymbolType.STRING
    ∧ LLDBSymbol.castString hiBad = none
    ∧ LLDBSymbol.type hiBad = SymbolType.ARRAY := by
  have h1 := (c2_string_detection hiGood [104, 105] [7] 200 (by decide) (by decide)
      (by decide)).1 (by decide)
  have h2 := (c2_string_detection hiBad [104, 105] [0] 200 (by decide) (by decide)
      (by decide)).2 (by decide) (by decide) (by decide)
  refine ⟨?_, h1.2, h2.1, h2.2⟩
  rw [h1.1]
  rfl

/-- C10: on an array whose first child's canonical type name is "char" and
all of whose backing bytes up to the declared length are printable (33..127,
hence no NUL terminator at all), the scan runs off the end successfully, the
detected string is the whole byte content, and the symbol classifies as
STRING. -/
theorem c10_unterminated_printable_array (v : SBValue)
    (hArr : isArrayType (canonical v.ty) = true)
    (hChar : (v.getChildAtIndex 0).canonicalTypename = ("char"))
    (hAll : ∀ b ∈ v.bytes.take v.numChildren, 33 ≤ b ∧ b ≤ 127) :
    LLDBSymbol.castString v =
      some (String.mk ((v.bytes.take v.numChildren).map (fun b => Char.ofNat b)))
    ∧ LLDBSymbol.type v = SymbolType.STRING := by
  have hcast : LLDBSymbol.castString v =
      some (String.mk ((v.bytes.take v.numChildren).map (fun b => Char.ofNat b))) := by
    rw [castString_eq_scan v hArr hChar, scanChars_printable _ hAll]
    rfl
  exact ⟨hcast, type_string_of_cast_some v _ hArr hcast⟩

/-- C10 witness: the two-byte char array "AB" with no NUL anywhere detects
as the string "AB" and classifies as STRING. -/
theorem c10_unterminated_printable_array_witness :
    LLDBSymbol.castString abNoNul = some ("AB")
    ∧ LLDBSymbol.type abNoNul = SymbolType.STRING := by
  have h := c10_unterminated_printable_array abNoNul (by decide) (by decide) (by decide)
  refine ⟨?_, h.2⟩
  rw [h.1]
  rfl

/-- C3: value_number is valid only for BASIC, POINTER and ENUM symbols
(anything else fails the assertion); ENUM yields the unsigned enumerator
value, POINTER yields the numeric address parsed base-0 from the textual
value, and BASIC dispatches on the resolved basic category: signed/plain
char via the signed accessor, unsigned char via the unsigned accessor, the
remaining recognized integer categories parsed base-0 from the textual
value, float/double parsed as floating point, and an invalid or unrecognized
category (eBasicTypeInvalid, the short categories, anything else) fails with
the UnsupportedType errors (ValueError/NotImplementedError). -/
theorem c3_value_number_dispatch (v : SBValue) :
    ((LLDBSymbol.type v = SymbolType.STRUCT ∨ LLDBSymbol.type v = SymbolType.ARRAY ∨
        LLDBSymbol.type v = SymbolType.STRING) →
      LLDBSymbol.valueNumber v = .error .assertionError)
    ∧ (LLDBSymbol.type v = SymbolType.ENUM →
      LLDBSymbol.valueNumber v = .ok (.int (v.uVal : Int)))
    ∧ (LLDBSymbol.type v = SymbolType.POINTER →
      LLDBSymbol.valueNumber v = (pyIntBase0 v.valText).map PyVal.int)
    ∧ (LLDBSymbol.type v = SymbolType.BASIC →
        (getBasicType (canonical v.ty) = .invalid →
          LLDBSymbol.valueNumber v = .error .valueError)
        ∧ ((getBasicType (canonical v.ty) = .char ∨
            getBasicType (canonical v.ty) = .signedChar) →
          LLDBSymbol.valueNumber v = .ok (.int v.sVal))
        ∧ (getBasicType (canonical v.ty) = .unsignedChar →
          LLDBSymbol.valueNumber v = .ok (.int (v.uVal : Int)))
        ∧ (getBasicType (canonical v.ty) ∈
            [BasicType.int, .unsignedInt, .long, .unsignedLong, .longLong,
              .unsignedLongLong] →
          LLDBSymbol.valueNumber v = (pyIntBase0 v.valText).map PyVal.int)
        ∧ ((getBasicType (canonical v.ty) = .float ∨
            getBasicType (canonical v.ty) = .double) →
          LLDBSymbol.valueNumber v = (pyFloat v.valText).map PyVal.float)
        ∧ (getBasicType (canonical v.ty) ∈
            [BasicType.short, .unsignedShort, .other] →
          LLDBSymbol.valueNumber v = .error .notImplementedError)) := by
  refine ⟨?_, ?_, ?_, ?_⟩
  · intro h
    rcases h with h | h | h <;> simp [LLDBSymbol.valueNumber, h]
  · intro h
    simp [LLDBSymbol.valueNumber, h]
  · intro h
    simp [LLDBSymbol.valueNumber, h]
  · intro h
    refine ⟨?_, ?_, ?_, ?_, ?_, ?_⟩
    · intro hbt
      simp [LLDBSymbol.valueNumber, h, hbt]
    · intro hbt
      rcases hbt with hbt | hbt <;> simp [LLDBSymbol.valueNumber, h, hbt, intTypesList]
    · intro hbt
      simp [LLDBSymbol.valueNumber, h, hbt, intTypesList]
    · intro hbt
      simp only [List.mem_cons, List.not_mem_nil, or_false] at hbt
      rcases hbt with hbt | hbt | hbt | hbt | hbt | hbt <;>
        simp [LLDBSymbol.valueNumber, h, hbt, intTypesList]
    · intro hbt
      rcases hbt with hbt | hbt <;>
        simp [LLDBSymbol.valueNumber, h, hbt, intTypesList, floatTypesList]
    · intro hbt
      simp only [List.mem_cons, List.not_mem_nil, or_false] at hbt
      rcases hbt with hbt | hbt | hbt <;>
        simp [LLDBSymbol.valueNumber, h, hbt, intTypesList, floatTypesList]

/-- C3 witness: on a concrete enum the enumerator's unsigned value 2 is
returned, and on a concrete int with textual value "10" the parsed integer
10 is returned. -/
theorem c3_value_number_dispatch_witness :
    LLDBSymbol.valueNumber enumExample = .ok (.int 2)
    ∧ LLDBSymbol.valueNumber intExample = .ok (.int 10) := by
  constructor
  · exact (c3_value_number_dispatch enumExample).2.1 (by decide)
  · have h := ((c3_value_number_dispatch intExample).2.2.2 (by decide)).2.2.2.1 (by decide)
    rw [h]
    rfl

/-- C4 counterexample: on a concrete ARRAY of length 3 the call index(-1)
succeeds, returning a wrapper of the backend's invalid value, because the
only bounds assertion in the source is n < num_indices; the claimed
IndexOutOfRange failure for negative n does not happen. -/
theorem c4_negative_index_counterexample :
    LLDBSymbol.index arr3 (-1) = .ok invalidValue := by
  rfl

/-- C4 amended: for an ARRAY of length L, index(n) returns the element for
0 <= n < L and fails the bounds assertion for n >= L; for n < 0 the
assertion n < L passes and the call succeeds, wrapping the backend's child
lookup (the invalid value), with no range failure; index and num_indices on
a non-ARRAY receiver fail the type assertion. -/
theorem c4_index_bounds_amended (v : SBValue) (n : Int)
    (hA : LLDBSymbol.type v = SymbolType.ARRAY) :
    (0 ≤ n → n < (v.numChildren : Int) →
        LLDBSymbol.index v n = .ok (v.children.getD n.toNat invalidValue))
    ∧ ((v.numChildren : Int) ≤ n →
        LLDBSymbol.index v n = .error .assertionError)
    ∧ (n < 0 → LLDBSymbol.index v n = .ok invalidValue)
    ∧ (∀ w : SBValue, LLDBSymbol.type w ≠ SymbolType.ARRAY →
        LLDBSymbol.index w n = .error .assertionError
        ∧ LLDBSymbol.numIndices w = .error .assertionError) := by
  refine ⟨?_, ?_, ?_, ?_⟩
  · intro h0 hlt
    obtain ⟨m, rfl⟩ := Int.eq_ofNat_of_zero_le h0
    simp only [LLDBSymbol.index, if_pos hA, if_pos hlt]
    rfl
  · intro hge
    have hnot : ¬ n < (v.numChildren : Int) := not_lt.mpr hge
    simp only [LLDBSymbol.index, if_pos hA, if_neg hnot]
  · intro hneg
    have hlt : n < (v.numChildren : Int) :=
      lt_of_lt_of_le hneg (Int.natCast_nonneg _)
    simp only [LLDBSymbol.index, if_pos hA, if_pos hlt]
    cases n with
    | ofNat m => exact absurd hneg (not_lt.mpr (Int.ofNat_nonneg m))
    | negSucc m => rfl
  · intro w hw
    constructor
    · simp only [LLDBSymbol.index, if_neg hw]
    · simp only [LLDBSymbol.numIndices, if_neg hw]

/-- C4 witness: on the concrete length-3 array, index(1) returns the second
element and index(5) fails the bounds assertion. -/
theorem c4_index_bounds_amended_witness :
    LLDBSymbol.index arr3 1 = .ok (childInt ("i1") ("2") 2 2)
    ∧ LLDBSymbol.index arr3 5 = .error .assertionError := by
  constructor
  · have h := (c4_index_bounds_amended arr3 1 (by decide)).1 (by decide) (by decide)
    rw [h]
    rfl
  · exact (c4_index_bounds_amended arr3 5 (by decide)).2.1 (by decide)

/-- C5 counterexample: member("b") on a concrete struct having only the
member "a" succeeds, returning a wrapper of the backend's invalid value;
the claimed NoSuchMember failure for an absent member does not happen (the
source wraps GetChildMemberWithName with no existence check, and no
NoSuchMember error exists anywhere in the repository). -/
theorem c5_no_such_member_counterexample :
    LLDBSymbol.member structA ("b") = .ok invalidValue := by
  rfl

/-- C5 amended: member(name) on an aggregate returns the child with exactly
the requested name when one exists; when no such member exists the call
still succeeds, returning a wrapper of the backend's invalid value (no
NoSuchMember failure); on a non-aggregate receiver it fails with the
RuntimeError of _check_members (the NotSupported failure). -/
theorem c5_member_amended (v : SBValue) (nm : String) :
    (LLDBSymbol.hasMembers v = true →
        (∀ c, v.children.find? (fun c2 => c2.nameOpt == some nm) = some c →
            LLDBSymbol.member v nm = .ok c ∧ c.nameOpt = some nm)
        ∧ (v.children.find? (fun c2 => c2.nameOpt == some nm) = none →
            LLDBSymbol.member v nm = .ok invalidValue))
    ∧ (LLDBSymbol.hasMembers v = false →
        LLDBSymbol.member v nm = .error .runtimeError) := by
  constructor
  · intro hm
    constructor
    · intro c hc
      have hp := List.find?_some hc
      have hname : c.nameOpt = some nm := eq_of_beq hp
      refine ⟨?_, hname⟩
      simp [LLDBSymbol.member, LLDBSymbol.checkMembers, hm,
        SBValue.getChildMemberWithName, hc]
    · intro hnone
      simp [LLDBSymbol.member, LLDBSymbol.checkMembers, hm,
        SBValue.getChildMemberWithName, hnone]
  · intro hm
    simp [LLDBSymbol.member, LLDBSymbol.checkMembers, hm]

/-- C5 witness: member("a") on the concrete struct returns the child whose
name is exactly "a". -/
theorem c5_member_amended_witness :
    LLDBSymbol.member structA ("a") = .ok (childInt ("a") ("1") 1 1)
    ∧ (childInt ("a") ("1") 1 1).nameOpt = some ("a") := by
  have h := ((c5_member_amended structA ("a")).1 (by rfl)).1
    (childInt ("a") ("1") 1 1) (by rfl)
  exact ⟨h.1, h.2⟩

/-- C6: LLDBTarget.get_global is an exact-match lookup, but on a missing
global it does not fail with SymbolNotFound: it wraps the invalid value the
backend returns (the SymbolNotFound class main.py imports is not even
defined in debugger_api.py, so its except branch is dead), and the boundary
get_global then inserts that invalid symbol into the handle table and fails
pydantic validation of the snapshot instead. -/
theorem c6_get_global_no_symbol_not_found :
    LLDBTarget.getGlobal demoGlobals ("y") = invalidValue
    ∧ (appGetGlobal st0 demoGlobals ("y")).2 = .error .validationError
    ∧ ((appGetGlobal st0 demoGlobals ("y")).1).symbols.length = 1
    ∧ LLDBTarget.getGlobal demoGlobals ("x") = childInt ("x") ("1") 1 1 := by
  exact ⟨rfl, rfl, rfl, rfl⟩

/-- C7: the special-character check of main.get_global tests find(c) > 0,
so a name whose only special character sits at position 0 is not rejected:
".foo" contains a dot yet passes the check and reaches the backend lookup
(ending in the validation failure of the invalid result), while "a.b",
whose dot sits at position 1, is rejected as the claim describes. -/
theorem c7_leading_special_char_accepted :
    splChars (".foo") = false
    ∧ (".foo").toList.contains ('.') = true
    ∧ splChars ("a.b") = true
    ∧ (appGetGlobal st0 demoGlobals (".foo")).2 = .error .validationError := by
  exact ⟨rfl, rfl, rfl, rfl⟩

/-- C8 counterexample: get_members called with a handle whose snapshot name
"WRONG" differs from the live symbol's name "s" succeeds anyway, because
only get_member performs the name verification; the claimed HandleMismatch
failure does not happen for get_members. -/
theorem c8_name_check_counterexample :
    (appGetMembers stA ⟨0, ("WRONG"), SymbolType.STRUCT⟩).2 = .ok []
    ∧ structEmpty.nameOpt = some ("s")
    ∧ (("WRONG") : String) ≠ ("s") := by
  exact ⟨rfl, rfl, by decide⟩

/-- C8 amended: only get_member resolves the handle with the UnknownHandle
ToolException and verifies the snapshot name with HandleMismatch; the other
handle-taking operations (get_members, get_index, get_array_size,
get_value_number, get_value_string) access the table directly, so an absent
identifier raises a bare KeyError rather than UnknownHandle, and the
snapshot name is never consulted: their results are identical for any two
snapshot names. -/
theorem c8_handle_checks_amended (st : AppState) (info : SymbolInfo)
    (nm : String) (n : Int) :
    (lookupSym st info.id = none →
        (appGetMember st info nm).2 = .error (.toolError .unknownHandle)
        ∧ (appGetMembers st info).2 = .error .keyError
        ∧ (appGetIndex st info n).2 = .error .keyError
        ∧ appGetArraySize st info = .error .keyError
        ∧ appGetValueNumber st info = .error .keyError
        ∧ appGetValueString st info = .error .keyError)
    ∧ (∀ var, lookupSym st info.id = some var → var.nameOpt ≠ some info.name →
        (appGetMember st info nm).2 = .error (.toolError .handleMismatch))
    ∧ (∀ i name1 name2 t,
        appGetMembers st ⟨i, name1, t⟩ = appGetMembers st ⟨i, name2, t⟩
        ∧ appGetIndex st ⟨i, name1, t⟩ n = appGetIndex st ⟨i, name2, t⟩ n
        ∧ appGetArraySize st ⟨i, name1, t⟩ = appGetArraySize st ⟨i, name2, t⟩
        ∧ appGetValueNumber st ⟨i, name1, t⟩ = appGetValueNumber st ⟨i, name2, t⟩
        ∧ appGetValueString st ⟨i, name1, t⟩ = appGetValueString st ⟨i, name2, t⟩) := by
  refine ⟨?_, ?_, ?_⟩
  · intro h
    refine ⟨?_, ?_, ?_, ?_, ?_, ?_⟩ <;>
      simp [appGetMember, appGetMembers, appGetIndex, appGetArraySize,
        appGetValueNumber, appGetValueString, h]
  · intro var hvar hne
    simp [appGetMember, hvar, hne]
  · intro i name1 name2 t
    exact ⟨rfl, rfl, rfl, rfl, rfl⟩

/-- C8 witness: with the concrete one-entry table, an unissued handle id 5
gives UnknownHandle from get_member but a bare KeyError from get_members,
and a snapshot whose name does not match the live symbol gives
HandleMismatch from get_member. -/
theorem c8_handle_checks_amended_witness :
    (appGetMember stA ⟨5, ("s"), SymbolType.STRUCT⟩ ("a")).2
        = .error (.toolError .unknownHandle)
    ∧ (appGetMembers stA ⟨5, ("s"), SymbolType.STRUCT⟩).2 = .error .keyError
    ∧ (appGetMember stA ⟨0, ("WRONGNAME"), SymbolType.STRUCT⟩ ("a")).2
        = .error (.toolError .handleMismatch) := by
  have h := (c8_handle_checks_amended stA ⟨5, ("s"), SymbolType.STRUCT⟩ ("a") 0).1
    (by rfl)
  have h2 := (c8_handle_checks_amended stA
      ⟨0, ("WRONGNAME"), SymbolType.STRUCT⟩ ("a") 0).2.1
    structEmpty (by rfl) (by decide)
  exact ⟨h.1, h.2.1, h2⟩

/-
Handle-table lemmas shared by the append-only analysis.
-/

theorem addSymbol_fst (st : AppState) (w : SBValue) :
    (addSymbol st w).1 = ⟨(st.nextId, w) :: st.symbols, st.nextId + 1⟩ := by
  cases hw : w.nameOpt <;> simp [addSymbol, hw]

theorem lookupSym_cons_ne (k : Nat) (w : SBValue) (syms : List (Nat × SBValue))
    (nid : Nat) (id : Nat) (hne : k ≠ id) :
    lookupSym ⟨(k, w) :: syms, nid⟩ id = (syms.find? (fun p => p.1 == id)).map (fun p => p.2) := by
  have hk : ((k, w).1 == id) = false := by
    simp [hne]
  simp [lookupSym, List.find?_cons, hk]

theorem lookupSym_lt_of_wf (st : AppState) (hWF : WFState st) (id : Nat)
    (v : SBValue) (h : lookupSym st id = some v) : id < st.nextId := by
  unfold lookupSym at h
  cases hf : st.symbols.find? (fun p => p.1 == id) with
  | none => rw [hf] at h; cases h
  | some pr =>
    have hmem := List.mem_of_find?_eq_some hf
    have hpr := List.find?_some hf
    simp only [beq_iff_eq] at hpr
    have := hWF pr hmem
    omega

theorem lookup_preserved_addSymbol (st : AppState) (w : SBValue)
    (hWF : WFState st) (id : Nat) (v : SBValue) (h : lookupSym st id = some v) :
    lookupSym (addSymbol st w).1 id = some v := by
  have hlt := lookupSym_lt_of_wf st hWF id v h
  rw [addSymbol_fst]
  rw [lookupSym_cons_ne _ _ _ _ _ (by omega)]
  exact h

theorem wf_addSymbol (st : AppState) (w : SBValue) (hWF : WFState st) :
    WFState (addSymbol st w).1 := by
  rw [addSymbol_fst]
  intro p hp
  simp only [List.mem_cons] at hp
  rcases hp with rfl | hp
  · simp
  · have := hWF p hp
    simp only []
    omega

theorem addSymbol_length (st : AppState) (w : SBValue) :
    ((addSymbol st w).1).symbols.length = st.symbols.length + 1 := by
  rw [addSymbol_fst]
  rfl

theorem addSymbolList_fst_cons (st : AppState) (w : SBValue) (ws : List SBValue) :
    (addSymbolList st (w :: ws)).1 =
      match (addSymbol st w).2 with
      | .error _ => (addSymbol st w).1
      | .ok _ => (addSymbolList ((addSymbol st w).1) ws).1 := by
  simp only [addSymbolList]
  cases h2 : (addSymbol st w).2 with
  | error e => rfl
  | ok info =>
    simp only []
    cases h3 : (addSymbolList ((addSymbol st w).1) ws).2 <;> rfl

theorem lookup_preserved_addSymbolList (vs : List SBValue) (st : AppState)
    (hWF : WFState st) (id : Nat) (v : SBValue) (h : lookupSym st id = some v) :
    lookupSym (addSymbolList st vs).1 id = some v := by
  induction vs generalizing st with
  | nil => exact h
  | cons w ws ih =>
    rw [addSymbolList_fst_cons]
    cases h2 : (addSymbol st w).2 with
    | error e =>
      exact lookup_preserved_addSymbol st w hWF id v h
    | ok info =>
      exact ih ((addSymbol st w).1) (wf_addSymbol st w hWF)
        (lookup_preserved_addSymbol st w hWF id v h)

theorem addSymbolList_length_of_ok (vs : List SBValue) (st : AppState)
    (infos : List SymbolInfo) (h : (addSymbolList st vs).2 = .ok infos) :
    ((addSymbolList st vs).1).symbols.length = st.symbols.length + vs.length := by
  induction vs generalizing st infos with
  | nil => rfl
  | cons w ws ih =>
    rw [addSymbolList_fst_cons]
    cases h2 : (addSymbol st w).2 with
    | error e =>
      exfalso
      simp only [addSymbolList, h2] at h
      exact Except.noConfusion h
    | ok info =>
      cases h3 : (addSymbolList ((addSymbol st w).1) ws).2 with
      | error e =>
        exfalso
        simp only [addSymbolList, h2, h3] at h
        exact Except.noConfusion h
      | ok infos2 =>
        have := ih ((addSymbol st w).1) infos2 h3
        simp only []
        rw [this, addSymbol_length]
        simp only [List.length_cons]
        omega

theorem addSymbol_error_eq (st : AppState) (w : SBValue) (e : PyErr)
    (h : (addSymbol st w).2 = .error e) : e = .validationError := by
  cases hw : w.nameOpt with
  | none =>
    have h2 : (addSymbol st w).2 = Except.error PyErr.validationError := by
      simp [addSymbol, hw]
    rw [h2] at h
    exact (Except.error.inj h).symm
  | some nm =>
    have h2 : (addSymbol st w).2 = Except.ok ⟨st.nextId, nm, LLDBSymbol.type w⟩ := by
      simp [addSymbol, hw]
    rw [h2] at h
    exact Except.noConfusion h

theorem addSymbolList_error_eq (vs : List SBValue) (st : AppState) (e : PyErr)
    (h : (addSymbolList st vs).2 = .error e) : e = .validationError := by
  induction vs generalizing st with
  | nil => exact absurd h (by simp [addSymbolList])
  | cons w ws ih =>
    cases h2 : (addSymbol st w).2 with
    | error e2 =>
      simp only [addSymbolList, h2] at h
      cases h
      exact addSymbol_error_eq st w e h2
    | ok info =>
      cases h3 : (addSymbolList ((addSymbol st w).1) ws).2 with
      | error e3 =>
        simp only [addSymbolList, h2, h3] at h
        cases h
        exact ih ((addSymbol st w).1) h3
      | ok infos =>
        simp only [addSymbolList, h2, h3] at h
        exact Except.noConfusion h

theorem appGetGlobal_preserves (st : AppState) (gl : List SBValue) (gname : String)
    (hWF : WFState st) (id : Nat) (v : SBValue) (h : lookupSym st id = some v) :
    lookupSym (appGetGlobal st gl gname).1 id = some v := by
  simp only [appGetGlobal]
  split
  · exact h
  · exact lookup_preserved_addSymbol st _ hWF id v h

theorem appGetMember_preserves (st : AppState) (info : SymbolInfo) (nm : String)
    (hWF : WFState st) (id : Nat) (v : SBValue) (h : lookupSym st id = some v) :
    lookupSym (appGetMember st info nm).1 id = some v := by
  cases hl : lookupSym st info.id with
  | none => simp only [appGetMember, hl]; exact h
  | some var =>
    simp only [appGetMember, hl]
    by_cases hn : var.nameOpt ≠ some info.name
    · rw [if_pos hn]; exact h
    · rw [if_neg hn]
      by_cases ht : LLDBSymbol.type var ≠ SymbolType.STRUCT
      · rw [if_pos ht]
        cases her : errReroute (LLDBSymbol.type var) <;> simp only [her] <;> exact h
      · rw [if_neg ht]
        cases hm : LLDBSymbol.member var nm with
        | ok memb =>
          simp only [hm]
          exact lookup_preserved_addSymbol st memb hWF id v h
        | error e => simp only [hm]; exact h

theorem appGetMembers_preserves (st : AppState) (info : SymbolInfo)
    (hWF : WFState st) (id : Nat) (v : SBValue) (h : lookupSym st id = some v) :
    lookupSym (appGetMembers st info).1 id = some v := by
  cases hl : lookupSym st info.id with
  | none => simp only [appGetMembers, hl]; exact h
  | some var =>
    simp only [appGetMembers, hl]
    by_cases ht : LLDBSymbol.type var ≠ SymbolType.STRUCT
    · rw [if_pos ht]
      cases her : errReroute (LLDBSymbol.type var) <;> simp only [her] <;> exact h
    · rw [if_neg ht]
      cases hm : LLDBSymbol.members var with
      | ok ms =>
        simp only [hm]
        exact lookup_preserved_addSymbolList ms st hWF id v h
      | error e => simp only [hm]; exact h

theorem appGetIndex_preserves (st : AppState) (info : SymbolInfo) (n : Int)
    (hWF : WFState st) (id : Nat) (v : SBValue) (h : lookupSym st id = some v) :
    lookupSym (appGetIndex st info n).1 id = some v := by
  cases hl : lookupSym st info.id with
  | none => simp only [appGetIndex, hl]; exact h
  | some var =>
    simp only [appGetIndex, hl]
    by_cases ht : LLDBSymbol.type var ≠ SymbolType.ARRAY
    · rw [if_pos ht]
      cases her : errReroute (LLDBSymbol.type var) <;> simp only [her] <;> exact h
    · rw [if_neg ht]
      cases hm : LLDBSymbol.index var n with
      | ok elem =>
        simp only [hm]
        exact lookup_preserved_addSymbol st elem hWF id v h
      | error e => simp only [hm]; exact h

theorem appGetGlobal_ok_length (st : AppState) (gl : List SBValue) (gname : String)
    (i : SymbolInfo) (h : (appGetGlobal st gl gname).2 = .ok i) :
    ((appGetGlobal st gl gname).1).symbols.length = st.symbols.length + 1 := by
  by_cases hsp : splChars gname = true
  · exfalso
    simp only [appGetGlobal, if_pos hsp] at h
    exact Except.noConfusion h
  · simp only [appGetGlobal, if_neg hsp]
    exact addSymbol_length st _

theorem appGetMember_ok_length (st : AppState) (info : SymbolInfo) (nm : String)
    (i : SymbolInfo) (h : (appGetMember st info nm).2 = .ok i) :
    ((appGetMember st info nm).1).symbols.length = st.symbols.length + 1 := by
  cases hl : lookupSym st info.id with
  | none =>
    simp only [appGetMember, hl] at h
    exact Except.noConfusion h
  | some var =>
    simp only [appGetMember, hl] at h ⊢
    by_cases hn : var.nameOpt ≠ some info.name
    · rw [if_pos hn] at h
      exact Except.noConfusion h
    · rw [if_neg hn] at h ⊢
      by_cases ht : LLDBSymbol.type var ≠ SymbolType.STRUCT
      · rw [if_pos ht] at h
        cases her : errReroute (LLDBSymbol.type var) <;> simp only [her] at h <;>
          exact Except.noConfusion h
      · rw [if_neg ht] at h ⊢
        cases hm : LLDBSymbol.member var nm with
        | ok memb =>
          simp only [hm]
          exact addSymbol_length st memb
        | error e =>
          simp only [hm] at h
          exact Except.noConfusion h

theorem appGetIndex_ok_length (st : AppState) (info : SymbolInfo) (n : Int)
    (i : SymbolInfo) (h : (appGetIndex st info n).2 = .ok i) :
    ((appGetIndex st info n).1).symbols.length = st.symbols.length + 1 := by
  cases hl : lookupSym st info.id with
  | none =>
    simp only [appGetIndex, hl] at h
    exact Except.noConfusion h
  | some var =>
    simp only [appGetIndex, hl] at h ⊢
    by_cases ht : LLDBSymbol.type var ≠ SymbolType.ARRAY
    · rw [if_pos ht] at h
      cases her : errReroute (LLDBSymbol.type var) <;> simp only [her] at h <;>
        exact Except.noConfusion h
    · rw [if_neg ht] at h ⊢
      cases hm : LLDBSymbol.index var n with
      | ok elem =>
        simp only [hm]
        exact addSymbol_length st elem
      | error e =>
        simp only [hm] at h
        exact Except.noConfusion h

theorem appGetMembers_ok_length (st : AppState) (info : SymbolInfo) (var : SBValue)
    (infos : List SymbolInfo) (hl : lookupSym st info.id = some var)
    (h : (appGetMembers st info).2 = .ok infos) :
    ((appGetMembers st info).1).symbols.length = st.symbols.length + var.numChildren := by
  simp only [appGetMembers, hl] at h ⊢
  by_cases ht : LLDBSymbol.type var ≠ SymbolType.STRUCT
  · rw [if_pos ht] at h
    cases her : errReroute (LLDBSymbol.type var) <;> simp only [her] at h <;>
      exact Except.noConfusion h
  · rw [if_neg ht] at h ⊢
    cases hm : LLDBSymbol.members var with
    | ok ms =>
      simp only [hm] at h ⊢
      have hms : ms = var.children := by
        by_cases hmem : LLDBSymbol.hasMembers var = true
        · simp only [LLDBSymbol.members, LLDBSymbol.checkMembers, if_pos hmem] at hm
          exact (Except.ok.inj hm).symm
        · simp only [LLDBSymbol.members, LLDBSymbol.checkMembers, if_neg hmem] at hm
          exact Except.noConfusion hm
      subst hms
      exact addSymbolList_length_of_ok _ st infos h
    | error e =>
      simp only [hm] at h
      exact Except.noConfusion h

theorem appGetGlobal_error_unchanged (st : AppState) (gl : List SBValue)
    (gname : String) (e : PyErr) (h : (appGetGlobal st gl gname).2 = .error e)
    (hne : e ≠ .validationError) : (appGetGlobal st gl gname).1 = st := by
  by_cases hsp : splChars gname = true
  · simp only [appGetGlobal, if_pos hsp]
  · exfalso
    simp only [appGetGlobal, if_neg hsp] at h
    exact hne (addSymbol_error_eq st _ e h)

theorem appGetMember_error_unchanged (st : AppState) (info : SymbolInfo)
    (nm : String) (e : PyErr) (h : (appGetMember st info nm).2 = .error e)
    (hne : e ≠ .validationError) : (appGetMember st info nm).1 = st := by
  cases hl : lookupSym st info.id with
  | none => simp only [appGetMember, hl]
  | some var =>
    simp only [appGetMember, hl] at h ⊢
    by_cases hn : var.nameOpt ≠ some info.name
    · rw [if_pos hn]
    · rw [if_neg hn] at h ⊢
      by_cases ht : LLDBSymbol.type var ≠ SymbolType.STRUCT
      · rw [if_pos ht] at h ⊢
        cases her : errReroute (LLDBSymbol.type var) <;> simp only [her]
      · rw [if_neg ht] at h ⊢
        cases hm : LLDBSymbol.member var nm with
        | ok memb =>
          exfalso
          simp only [hm] at h
          exact hne (addSymbol_error_eq st memb e h)
        | error e2 => simp only [hm]

theorem appGetMembers_error_unchanged (st : AppState) (info : SymbolInfo)
    (e : PyErr) (h : (appGetMembers st info).2 = .error e)
    (hne : e ≠ .validationError) : (appGetMembers st info).1 = st := by
  cases hl : lookupSym st info.id with
  | none => simp only [appGetMembers, hl]
  | some var =>
    simp only [appGetMembers, hl] at h ⊢
    by_cases ht : LLDBSymbol.type var ≠ SymbolType.STRUCT
    · rw [if_pos ht] at h ⊢
      cases her : errReroute (LLDBSymbol.type var) <;> simp only [her]
    · rw [if_neg ht] at h ⊢
      cases hm : LLDBSymbol.members var with
      | ok ms =>
        exfalso
        simp only [hm] at h
        exact hne (addSymbolList_error_eq ms st e h)
      | error e2 => simp only [hm]

theorem appGetIndex_error_unchanged (st : AppState) (info : SymbolInfo) (n : Int)
    (e : PyErr) (h : (appGetIndex st info n).2 = .error e)
    (hne : e ≠ .validationError) : (appGetIndex st info n).1 = st := by
  cases hl : lookupSym st info.id with
  | none => simp only [appGetIndex, hl]
  | some var =>
    simp only [appGetIndex, hl] at h ⊢
    by_cases ht : LLDBSymbol.type var ≠ SymbolType.ARRAY
    · rw [if_pos ht] at h ⊢
      cases her : errReroute (LLDBSymbol.type var) <;> simp only [her]
    · rw [if_neg ht] at h ⊢
      cases hm : LLDBSymbol.index var n with
      | ok elem =>
        exfalso
        simp only [hm] at h
        exact hne (addSymbol_error_eq st elem e h)
      | error e2 => simp only [hm]

/-- C9 counterexample: a successful get_members on a struct with two members
adds two handle-table entries, not exactly one as the claim states for every
successful traversal operation. -/
theorem c9_get_members_count_counterexample :
    (appGetMembers stB ⟨0, ("s"), SymbolType.STRUCT⟩).2
      = .ok [⟨1, ("a"), SymbolType.BASIC⟩, ⟨2, ("b"), SymbolType.BASIC⟩]
    ∧ ((appGetMembers stB ⟨0, ("s"), SymbolType.STRUCT⟩).1).symbols.length
      = stB.symbols.length + 2 := by
  exact ⟨rfl, rfl⟩

/-- C9 amended: the handle table is append-only (every entry visible before
any traversal operation is still there, unchanged, afterwards); a successful
get_global, get_member or get_index adds exactly one entry, while a
successful get_members adds one entry per member of the receiver; and a
failure other than the result-validation failure (which in the source
happens only after its entry was already inserted) leaves the table exactly
as it was. -/
theorem c9_handle_table_amended (st : AppState) (gl : List SBValue)
    (gname : String) (info : SymbolInfo) (nm : String) (n : Int)
    (hWF : WFState st) :
    (∀ id v, lookupSym st id = some v →
        lookupSym (appGetGlobal st gl gname).1 id = some v
        ∧ lookupSym (appGetMember st info nm).1 id = some v
        ∧ lookupSym (appGetMembers st info).1 id = some v
        ∧ lookupSym (appGetIndex st info n).1 id = some v)
    ∧ (∀ i, (appGetGlobal st gl gname).2 = .ok i →
        ((appGetGlobal st gl gname).1).symbols.length = st.symbols.length + 1)
    ∧ (∀ i, (appGetMember st info nm).2 = .ok i →
        ((appGetMember st info nm).1).symbols.length = st.symbols.length + 1)
    ∧ (∀ i, (appGetIndex st info n).2 = .ok i →
        ((appGetIndex st info n).1).symbols.length = st.symbols.length + 1)
    ∧ (∀ var infos, lookupSym st info.id = some var →
        (appGetMembers st info).2 = .ok infos →
        ((appGetMembers st info).1).symbols.length
          = st.symbols.length + var.numChildren)
    ∧ (∀ e, (appGetGlobal st gl gname).2 = .error e → e ≠ .validationError →
        (appGetGlobal st gl gname).1 = st)
    ∧ (∀ e, (appGetMember st info nm).2 = .error e → e ≠ .validationError →
        (appGetMember st info nm).1 = st)
    ∧ (∀ e, (appGetMembers st info).2 = .error e → e ≠ .validationError →
        (appGetMembers st info).1 = st)
    ∧ (∀ e, (appGetIndex st info n).2 = .error e → e ≠ .validationError →
        (appGetIndex st info n).1 = st) := by
  refine ⟨?_, ?_, ?_, ?_, ?_, ?_, ?_, ?_, ?_⟩
  · intro id v h
    exact ⟨appGetGlobal_preserves st gl gname hWF id v h,
      appGetMember_preserves st info nm hWF id v h,
      appGetMembers_preserves st info hWF id v h,
      appGetIndex_preserves st info n hWF id v h⟩
  · intro i h
    exact appGetGlobal_ok_length st gl gname i h
  · intro i h
    exact appGetMember_ok_length st info nm i h
  · intro i h
    exact appGetIndex_ok_length st info n i h
  · intro var infos hl h
    exact appGetMembers_ok_length st info var infos hl h
  · intro e h hne
    exact appGetGlobal_error_unchanged st gl gname e h hne
  · intro e h hne
    exact appGetMember_error_unchanged st info nm e h hne
  · intro e h hne
    exact appGetMembers_error_unchanged st info e h hne
  · intro e h hne
    exact appGetIndex_error_unchanged st info n e h hne

/-- C9 witness: on the concrete one-entry table, a successful get_members
keeps the old entry intact, and a failed get_member (name mismatch) leaves
the table exactly as it was. -/
theorem c9_handle_table_amended_witness :
    lookupSym (appGetMembers stB ⟨0, ("s"), SymbolType.STRUCT⟩).1 0 = some struct2
    ∧ (appGetMember stB ⟨0, ("zzz"), SymbolType.STRUCT⟩ ("a")).1 = stB := by
  have hwf : WFState stB := by
    intro p hp
    simp only [stB, List.mem_singleton] at hp
    subst hp
    decide
  constructor
  · exact ((c9_handle_table_amended stB demoGlobals ("x")
      ⟨0, ("s"), SymbolType.STRUCT⟩ ("a") 0 hwf).1 0 struct2 (by rfl)).2.2.1
  · exact (c9_handle_table_amended stB demoGlobals ("x")
      ⟨0, ("zzz"), SymbolType.STRUCT⟩ ("a") 0 hwf).2.2.2.2.2.2.1
      (.toolError .handleMismatch) (by rfl) (by decide)
